import Mathlib

/-!
A verification development for the moviehubbd backend (Node.js/Express/Mongoose).

Shallow embedding conventions used throughout this file:
* JavaScript numbers that the code only ever adds/compares are modelled as `Int`
  (or `ℚ` where the code multiplies by decimal literals such as `0.7`; the
  fractional literals are represented exactly as rationals).
* JavaScript strings are modelled as Lean `String`, except in the slug
  generator where a string is modelled as its list of UTF-16 code units
  (`List Nat`), which is what the JS regexes actually operate on.
* `parseInt(x) || d` is modelled by an `Option Int` input where `none` stands
  for `NaN` and the JS falsiness of `0` is handled explicitly.
* Fallible controller actions are modelled as `Except` values; an HTTP error
  response corresponds to `Except.error` and performs no save.
* Mongoose documents are modelled as structures carrying the schema fields the
  verified properties depend on; schema fields never read or written by the
  functions under study are omitted.
-/

namespace MovieHubBD

/-! ## Pagination helper (`backend/utils/helpers.js`, `createPagination`) -/

/-- Result envelope of `createPagination`. -/
structure Pagination (α : Type) where
  docs : List α
  totalDocs : Nat
  limit : Int
  totalPages : Int
  page : Int
  pagingCounter : Int
  hasPrevPage : Bool
  hasNextPage : Bool
  prevPage : Option Int
  nextPage : Option Int
  deriving Repr, DecidableEq

/-- `parseInt(v) || dflt`: `none` models `NaN`; `0` is falsy in JS, so it also
falls back to the default. -/
def jsOrInt (v : Option Int) (dflt : Int) : Int :=
  match v with
  | none => dflt
  | some p => if p = 0 then dflt else p

/-- `createPagination({ page, limit, total, docs })` from
`backend/utils/helpers.js`.  `Math.ceil` on the real quotient is modelled with
the exact rational quotient; `total` is a document count, hence `Nat`. -/
def createPagination {α : Type} (page limit : Option Int) (total : Nat)
    (docs : List α) : Pagination α :=
  let currentPage : Int := jsOrInt page 1
  let itemsPerPage : Int := jsOrInt limit 12
  let totalPages : Int := ⌈(total : ℚ) / (itemsPerPage : ℚ)⌉
  let hasNextPage : Bool := decide (currentPage < totalPages)
  let hasPrevPage : Bool := decide (1 < currentPage)
  { docs := docs
    totalDocs := total
    limit := itemsPerPage
    totalPages := totalPages
    page := currentPage
    pagingCounter := (currentPage - 1) * itemsPerPage + 1
    hasPrevPage := hasPrevPage
    hasNextPage := hasNextPage
    prevPage := if hasPrevPage then some (currentPage - 1) else none
    nextPage := if hasNextPage then some (currentPage + 1) else none }

/-! ## Filter-query builder (`backend/utils/helpers.js`, `buildFilterQuery`) -/

/-- A JavaScript value as it can occur in the request-parameter objects fed to
`buildFilterQuery`.  (`NaN` as a number literal is not representable; none of
the verified properties need it.) -/
inductive JsVal where
  | str (s : String)
  | num (n : Int)
  | bool (b : Bool)
  | null
  | undef
  deriving Repr, DecidableEq

/-- JS falsiness for the values of `JsVal`. -/
def jsFalsy : JsVal → Bool
  | .str s => s = ""
  | .num n => n = 0
  | .bool b => !b
  | .null => true
  | .undef => true

/-- `v.toString()` for the values of `JsVal` (on `null`/`undefined` the code
would throw before using the result; the branch is unreachable because the
falsiness guard runs first). -/
def jsToString : JsVal → String
  | .str s => s
  | .num n => toString n
  | .bool b => if b then "true" else "false"
  | .null => "null"
  | .undef => "undefined"

/-- ASCII whitespace (the members of the JS `\s` class that occur in the
strings handled here). -/
def isWsChar (c : Char) : Bool :=
  c = ' ' || c = '\t' || c = '\n' || c = '\r' || c = '\x0b' || c = '\x0c'

/-- `String.prototype.trim` on the underlying character list. -/
def trimCharList (l : List Char) : List Char :=
  ((l.dropWhile isWsChar).reverse.dropWhile isWsChar).reverse

/-- `String.prototype.trim` (own structural implementation so that concrete
instances reduce inside the kernel). -/
def jsTrim (s : String) : String :=
  ⟨trimCharList s.data⟩

/-- `String.prototype.split(',')` on the underlying character list; the
accumulator holds the current (reversed) segment. -/
def splitCommaAux : List Char → List Char → List (List Char)
  | [], acc => [acc.reverse]
  | c :: rest, acc =>
    if c = ',' then acc.reverse :: splitCommaAux rest []
    else splitCommaAux rest (c :: acc)

/-- `String.prototype.split(',')`. -/
def jsSplitComma (s : String) : List String :=
  (splitCommaAux s.data []).map (fun l => ⟨l⟩)

/-- Longest-prefix integer parse of a trimmed string: optional sign followed by
decimal digits.  This models `parseInt` for the integer-valued strings the
backend receives (fractional/exponent syntax is not modelled; no verified
property exercises it). -/
def parseIntStr (s : String) : Option Int :=
  let chars := (jsTrim s).data
  let core : List Char × Bool :=
    match chars with
    | '-' :: rest => (rest, true)
    | '+' :: rest => (rest, false)
    | _ => (chars, false)
  let digits := core.1.takeWhile Char.isDigit
  if digits.isEmpty then none
  else
    let n : Nat := digits.foldl (fun acc c => acc * 10 + (c.toNat - 48)) 0
    some (if core.2 then -(n : Int) else (n : Int))

/-- `Number(v)` coercion, with `none` standing for `NaN`.  Strings are parsed
only when they are entirely an optionally-signed decimal integer (an
approximation of the full JS numeric grammar; sufficient here since only
`releaseYear`/`rating` use it and no verified property exercises them). -/
def jsNumberVal : JsVal → Option Int
  | .num n => some n
  | .bool b => some (if b then 1 else 0)
  | .null => some 0
  | .undef => none
  | .str s =>
    if jsTrim s = "" then some 0
    else if (jsTrim s).data.all (fun c => c.isDigit || c = '-' || c = '+') then
      parseIntStr s
    else none

/-- One structured condition of the Mongo query object produced by
`buildFilterQuery`. -/
inductive FilterCond where
  | inList (vals : List String)
  | eqVal (v : JsVal)
  | eqInt (n : Int)
  | gteInt (n : Int)
  deriving Repr, DecidableEq

/-- The body of the `forEach` in `buildFilterQuery`: the constraint assigned to
`query[key]` by one `(key, value)` request parameter, or `none` when the branch
assigns nothing (each branch of the `switch` only ever assigns the field named
by its own `key`). -/
def entryFor (key : String) (v : JsVal) : Option FilterCond :=
  if jsFalsy v = true || jsTrim (jsToString v) = "" then none
  else if key = "genres" then
    match v with
    | .str s =>
      let genreArray := ((jsSplitComma s).map jsTrim).filter (fun g => g ≠ "")
      if genreArray.length > 0 then some (.inList genreArray) else none
    | _ => none
  else if key = "language" then
    match v with
    | .str s => some (.inList [s])
    | _ => none
  else if key = "releaseYear" then
    match jsNumberVal v with
    | some _ => some (.eqInt ((parseIntStr (jsToString v)).getD 0))
    | none => none
  else if key = "type" then some (.eqVal v)
  else if key = "quality" then some (.eqVal v)
  else if key = "rating" then
    match jsNumberVal v with
    | some n => some (.gteInt n)
    | none => none
  else if key = "adminStatus" then some (.eqVal v)
  else some (.eqVal v)

/-- `buildFilterQuery(filters)`: iterate over the parameter object's entries and
collect the assigned constraints.  A JS object has at most one entry per key,
which the theorems record as a `Nodup` hypothesis on the key list. -/
def buildFilterQuery (filters : List (String × JsVal)) : List (String × FilterCond) :=
  filters.foldl
    (fun q kv =>
      q ++ (match entryFor kv.1 kv.2 with
            | some c => [(kv.1, c)]
            | none => []))
    []

/-- MongoDB semantics of `{field: {$in: vals}}` applied to a document whose
`field` is an array of strings: the document matches when some element of the
stored array is among `vals`. -/
def inListMatchesArrayField (vals : List String) (fieldValues : List String) : Prop :=
  ∃ g ∈ fieldValues, g ∈ vals

/-- The query object built by `getAllAds` (`backend/controllers/adController.js`):
`buildFilterQuery({type, placement, isActive: isActive === 'true' ? true :
isActive === 'false' ? false : undefined, network})`. -/
def adsListQuery (type placement network : JsVal) (isActive : Option String) :
    List (String × FilterCond) :=
  buildFilterQuery
    [("type", type),
     ("placement", placement),
     ("isActive",
       if isActive = some "true" then .bool true
       else if isActive = some "false" then .bool false
       else .undef),
     ("network", network)]

/-! ## Trending sort of the combined content feed
(`backend/utils/helpers.js` `buildSortQuery` and
`backend/controllers/contentController.js` `getContent`) -/

/-- The `contentType` tag attached to each document in the combined feed. -/
inductive ContentType where
  | movie
  | series
  deriving Repr, DecidableEq

/-- A document of the combined feed with the fields read by the trending
comparators.  `rating` is `ℚ` because the trending score multiplies it by a
decimal literal; `createdAt` is a timestamp. -/
structure FeedItem where
  contentType : ContentType
  views : Int
  rating : ℚ
  likes : Int
  createdAt : Int
  deriving Repr, DecidableEq

/-- `buildSortQuery('trending')` = `{views: -1, rating: -1, createdAt: -1}`:
the ≤-comparator of this lexicographic descending MongoDB ordering.  A Mongo
result list for this sort is any list that is `Pairwise` for this relation. -/
def mongoTrendingLe (a b : FeedItem) : Bool :=
  if a.views = b.views then
    if a.rating = b.rating then decide (b.createdAt ≤ a.createdAt)
    else decide (b.rating < a.rating)
  else decide (b.views < a.views)

/-- The in-memory trending score of `getContent` for `type === 'all'`:
`(views * 0.7) + (rating * 10) + (likes * 0.3)` (JS float literals represented
exactly as rationals). -/
def trendingScore (x : FeedItem) : ℚ :=
  (x.views : ℚ) * (7 / 10) + x.rating * 10 + (x.likes : ℚ) * (3 / 10)

/-- ≤-comparator of the JS comparator
`(a, b) => trendingScoreB - trendingScoreA` (descending by score): `a` may
stay before `b` iff `score b ≤ score a`. -/
def trendingLe (a b : FeedItem) : Bool :=
  decide (trendingScore b ≤ trendingScore a)

/-- The `allContent.sort(...)` re-sort for `sortBy === 'trending'`.
`Array.prototype.sort` is stable (ECMAScript 2019+, and V8 implements it so),
hence it is modelled by the stable `List.mergeSort`. -/
def resortTrending (l : List FeedItem) : List FeedItem :=
  l.mergeSort trendingLe

/-- `getContent` with `type = 'all'`, `sortBy = 'trending'`: movies are fetched
(store-sorted), series are fetched (store-sorted), concatenated in that order,
and the concatenation is re-sorted in memory by trending score. -/
def combinedTrendingFeed (movies series : List FeedItem) : List FeedItem :=
  resortTrending (movies ++ series)

/-- "Among score-relevant ties, the more recently created item comes first":
whenever `a` is placed before `b` and they agree on views, rating and likes,
`b` is not newer than `a`. -/
def recentFirstOnTies (l : List FeedItem) : Prop :=
  l.Pairwise (fun a b =>
    a.views = b.views ∧ a.rating = b.rating ∧ a.likes = b.likes →
      b.createdAt ≤ a.createdAt)

/-! ## Slug generator (`backend/utils/helpers.js`, `generateSlug`)

JS strings are sequences of UTF-16 code units; the regex classes involved
(`\w`, `\s`, `-`) are code-unit tests, so the generator is embedded over
`List Nat` of code units.  `\s` is modelled by its ASCII members (the verified
character-set property is unaffected: all non-ASCII units are removed by the
`[^\w\s-]` filter either way). -/

/-- `String.prototype.toLowerCase` restricted to ASCII: the only case where the
full Unicode mapping can differ is on code points the `[^\w\s-]` filter removes
next. -/
def jsToLowerCode (c : Nat) : Nat :=
  if 65 ≤ c ∧ c ≤ 90 then c + 32 else c

/-- The regex class `\w` = `[A-Za-z0-9_]`. -/
def isWordCode (c : Nat) : Bool :=
  (48 ≤ c && c ≤ 57) || (65 ≤ c && c ≤ 90) || (97 ≤ c && c ≤ 122) || c = 95

/-- The regex class `\s` (ASCII members: space, tab, LF, VT, FF, CR). -/
def isSpaceCode (c : Nat) : Bool :=
  c = 32 || c = 9 || c = 10 || c = 11 || c = 12 || c = 13

/-- The class `[\s_-]` replaced by hyphens. -/
def isSepCode (c : Nat) : Bool :=
  isSpaceCode c || c = 95 || c = 45

/-- `.trim()`: drop whitespace from both ends. -/
def trimSpaces (l : List Nat) : List Nat :=
  ((l.dropWhile (fun c => isSpaceCode c)).reverse.dropWhile
    (fun c => isSpaceCode c)).reverse

/-- `.replace(/[^\w\s-]/g, '')`. -/
def removeSpecials (l : List Nat) : List Nat :=
  l.filter (fun c => isWordCode c || isSpaceCode c || c = 45)

/-- `.replace(/[\s_-]+/g, '-')`: each maximal run of separator units becomes a
single hyphen.  The flag records whether the previous unit belonged to a run. -/
def collapseSeps : List Nat → Bool → List Nat
  | [], _ => []
  | c :: rest, prev =>
    if isSepCode c then
      if prev then collapseSeps rest true else 45 :: collapseSeps rest true
    else c :: collapseSeps rest false

/-- `.replace(/^-+|-+$/g, '')`. -/
def trimHyphens (l : List Nat) : List Nat :=
  ((l.dropWhile (fun c => c = 45)).reverse.dropWhile (fun c => c = 45)).reverse

/-- Decimal digit code units of `n`, most significant first (the rendering of
`${year}`).  Structural recursion on a fuel argument so that the definition
reduces by `decide`/`rfl`; `n + 1` units of fuel always suffice. -/
def natDigitsAux : Nat → Nat → List Nat
  | 0, _ => []
  | k + 1, n =>
    if n < 10 then [48 + n]
    else natDigitsAux k (n / 10) ++ [48 + n % 10]

/-- The code units of the decimal rendering of `n`. -/
def natDigits (n : Nat) : List Nat :=
  natDigitsAux (n + 1) n

/-- `generateSlug(title, year)` from `backend/utils/helpers.js`.  `if (year)` is
JS truthiness: a year of `0` (like an absent year) appends nothing. -/
def generateSlug (title : List Nat) (year : Option Nat) : List Nat :=
  let baseSlug :=
    trimHyphens (collapseSeps (removeSpecials (trimSpaces
      (title.map jsToLowerCode))) false)
  match year with
  | none => baseSlug
  | some y => if y = 0 then baseSlug else baseSlug ++ 45 :: natDigits y

/-- The character set `[a-z0-9-]` of the claimed slug alphabet. -/
def allowedSlugCode (c : Nat) : Bool :=
  (97 ≤ c && c ≤ 122) || (48 ≤ c && c ≤ 57) || c = 45

/-! ## Series aggregate
(schema with its `pre('save')` hook, and
`backend/controllers/seriesController.js` `addSeason`/`addEpisode`)

Schema fields not read or written by these operations (title, slug, poster
paths, counters, ...) are omitted; the slug-regeneration half of the
`pre('save')` hook only touches such omitted fields. -/

/-- An episode, with the fields the mutation paths inspect. -/
structure Episode where
  episodeNumber : Int
  title : String
  deriving Repr, DecidableEq

/-- A season subdocument. -/
structure Season where
  seasonNumber : Int
  name : String
  overview : String
  posterPath : String
  airDate : Option Int
  episodes : List Episode
  deriving Repr, DecidableEq

/-- A series document. -/
structure Series where
  seasons : List Season
  numberOfSeasons : Nat
  numberOfEpisodes : Nat
  addedBy : Nat
  lastModifiedBy : Option Nat
  deriving Repr, DecidableEq

/-- The count-maintenance half of `seriesSchema.pre('save')`: recompute
`numberOfEpisodes` by accumulating episode-list lengths over all seasons, and
set `numberOfSeasons` to the season count. -/
def seriesPreSave (s : Series) : Series :=
  let totalEpisodes := s.seasons.foldl (fun acc season => acc + season.episodes.length) 0
  { s with numberOfEpisodes := totalEpisodes, numberOfSeasons := s.seasons.length }

/-- The role of the authenticated requester. -/
inductive Role where
  | admin
  | moderator
  | user
  deriving Repr, DecidableEq

/-- `req.user`, reduced to the two fields the ownership check reads. -/
structure UserCtx where
  id : Nat
  role : Role
  deriving Repr, DecidableEq

/-- HTTP error statuses produced by the season/episode mutation handlers. -/
inductive ErrStatus where
  | forbidden
  | notFound
  | conflict
  deriving Repr, DecidableEq

/-- The requester may mutate the series (admin, or owner via `addedBy`). -/
def authorized (s : Series) (u : UserCtx) : Prop :=
  u.role = .admin ∨ s.addedBy = u.id

instance (s : Series) (u : UserCtx) : Decidable (authorized s u) := by
  unfold authorized; infer_instance

/-- `addSeason` (`seriesController.js`), applied to the already-fetched series:
ownership check, duplicate-season check (`find` with `===` on `seasonNumber`),
push of the new season with its defaults, then `save()` (which runs the
`pre('save')` hook).  A JS `name`/`overview`/`posterPath` of `undefined` and
the empty string are both falsy for the `||` defaults, so they are modelled as
`String` with `""` for "absent". -/
def addSeason (s : Series) (u : UserCtx) (seasonNumber : Int)
    (name overview posterPath : String) (airDate : Option Int) :
    Except ErrStatus Series :=
  if u.role ≠ .admin ∧ s.addedBy ≠ u.id then .error .forbidden
  else if s.seasons.any (fun se => se.seasonNumber = seasonNumber) then
    .error .conflict
  else
    let newSeason : Season :=
      { seasonNumber := seasonNumber
        name :=
          if name = "" then
            if seasonNumber = 0 then "Specials" else "Season " ++ toString seasonNumber
          else name
        overview := overview
        posterPath := posterPath
        airDate := airDate
        episodes := [] }
    .ok (seriesPreSave
      { s with seasons := s.seasons ++ [newSeason], lastModifiedBy := some u.id })

/-- `season.episodes.push(episodeData)` applied to the season found by
`seasons.find(s => s.seasonNumber == seasonNumber)`: only the first season with
a matching number is mutated. -/
def pushEpisodeFirst : List Season → Int → Episode → List Season
  | [], _, _ => []
  | se :: rest, n, e =>
    if se.seasonNumber = n then
      { se with episodes := se.episodes ++ [e] } :: rest
    else se :: pushEpisodeFirst rest n e

/-- `addEpisode` (`seriesController.js`), applied to the already-fetched
series: ownership check, season lookup (404 if missing), duplicate-episode
check (409), push, then `save()`.  The route parameter `seasonNumber` is
compared with the JS loose `==`, i.e. numeric equality after coercion, modelled
as `Int` equality. -/
def addEpisode (s : Series) (u : UserCtx) (seasonNumber : Int) (ep : Episode) :
    Except ErrStatus Series :=
  if u.role ≠ .admin ∧ s.addedBy ≠ u.id then .error .forbidden
  else
    match s.seasons.find? (fun se => se.seasonNumber = seasonNumber) with
    | none => .error .notFound
    | some season =>
      if season.episodes.any (fun e => e.episodeNumber = ep.episodeNumber) then
        .error .conflict
      else
        .ok (seriesPreSave
          { s with seasons := pushEpisodeFirst s.seasons seasonNumber ep
                   lastModifiedBy := some u.id })

/-- One mutation request against a series. -/
inductive SeriesOp where
  | season (u : UserCtx) (seasonNumber : Int)
      (name overview posterPath : String) (airDate : Option Int)
  | episode (u : UserCtx) (seasonNumber : Int) (ep : Episode)
  deriving Repr, DecidableEq

/-- Execute one request against the stored series.  The `Bool` records whether
a `save()` happened: an error response leaves the stored document untouched. -/
def applySeriesOp (s : Series) : SeriesOp → Series × Bool
  | .season u n name overview posterPath airDate =>
    match addSeason s u n name overview posterPath airDate with
    | .ok s2 => (s2, true)
    | .error _ => (s, false)
  | .episode u n ep =>
    match addEpisode s u n ep with
    | .ok s2 => (s2, true)
    | .error _ => (s, false)

/-- Run a sequence of mutation requests against the stored series. -/
def runSeriesOps (s : Series) (ops : List SeriesOp) : Series :=
  ops.foldl (fun st op => (applySeriesOp st op).1) s

/-- The documented derived-field invariant: the stored `numberOfEpisodes` is
the sum of the episode-list lengths over all seasons, and `numberOfSeasons` is
the season count. -/
def countInvariant (s : Series) : Prop :=
  s.numberOfEpisodes = (s.seasons.map (fun se => se.episodes.length)).sum ∧
  s.numberOfSeasons = s.seasons.length

/-! ## User serialization (`userSchema.methods.toJSON`) -/

/-- A JSON value (enough structure for the user document's fields). -/
inductive JsonVal where
  | str (s : String)
  | num (n : Int)
  | bool (b : Bool)
  | null
  | arr (elems : List JsonVal)
  | obj (fields : List (String × JsonVal))
  deriving Repr

/-- One watchlist entry. -/
structure WatchItem where
  contentItem : Nat
  contentType : String
  addedAt : Int
  deriving Repr, DecidableEq

/-- A user document (all schema fields of `userSchema`). -/
structure User where
  id : Nat
  username : String
  email : String
  password : String
  role : Role
  avatar : String
  isActive : Bool
  lastLogin : Option Int
  refreshToken : Option String
  watchlist : List WatchItem
  prefLanguage : String
  prefTheme : String
  prefEmailNotifications : Bool
  createdAt : Int
  updatedAt : Int
  deriving Repr

/-- `Option` fields serialize as the value or JSON `null`. -/
def optJson (f : α → JsonVal) : Option α → JsonVal
  | none => .null
  | some a => f a

/-- `this.toObject()`: the plain key/value object of the stored document. -/
def userToObject (u : User) : List (String × JsonVal) :=
  [("_id", .num u.id),
   ("username", .str u.username),
   ("email", .str u.email),
   ("password", .str u.password),
   ("role", .str (match u.role with
     | .admin => "admin"
     | .moderator => "moderator"
     | .user => "user")),
   ("avatar", .str u.avatar),
   ("isActive", .bool u.isActive),
   ("lastLogin", optJson JsonVal.num u.lastLogin),
   ("refreshToken", optJson JsonVal.str u.refreshToken),
   ("watchlist", .arr (u.watchlist.map (fun w =>
     .obj [("contentItem", .num w.contentItem),
           ("contentType", .str w.contentType),
           ("addedAt", .num w.addedAt)]))),
   ("preferences", .obj
     [("language", .str u.prefLanguage),
      ("theme", .str u.prefTheme),
      ("emailNotifications", .bool u.prefEmailNotifications)]),
   ("createdAt", .num u.createdAt),
   ("updatedAt", .num u.updatedAt)]

/-- `userSchema.methods.toJSON`: take the plain object and `delete` the
`password` and `refreshToken` properties. -/
def userToJSON (u : User) : List (String × JsonVal) :=
  (userToObject u).filter (fun kv => kv.1 ≠ "password" && kv.1 ≠ "refreshToken")

/-! ## Ad targeting (`backend/models/Ad.js`, `getActiveAdsByPlacement`) -/

/-- An ad document, with the fields the serving query reads. -/
structure Ad where
  name : String
  placement : String
  isActive : Bool
  priority : Int
  targetPages : List String
  targetDevices : List String
  targetCountries : List String
  startDate : Option Int
  endDate : Option Int
  createdAt : Int
  deriving Repr, DecidableEq

/-- The page/device targeting sub-filter: the query adds
`$or: [{target: {$in: [requested, 'all']}}, {target: {$size: 0}}]` — but only
when the requested value is not the literal `'all'`; otherwise no filter is
added at all and every ad passes. -/
def targetListOK (requested : String) (lst : List String) : Bool :=
  if requested = "all" then true
  else lst.contains requested || lst.contains "all" || lst.isEmpty

/-- The schedule window part of the query: `startDate` missing or `≤ now`,
`endDate` missing or `≥ now`. -/
def scheduleOK (now : Int) (ad : Ad) : Bool :=
  (match ad.startDate with
   | none => true
   | some d => decide (d ≤ now)) &&
  (match ad.endDate with
   | none => true
   | some d => decide (now ≤ d))

/-- The document predicate of the Mongo query built by
`getActiveAdsByPlacement(placement, targetPage, targetDevice)`. -/
def adQueryMatches (now : Int) (placement targetPage targetDevice : String)
    (ad : Ad) : Bool :=
  ad.placement = placement && ad.isActive && scheduleOK now ad &&
  targetListOK targetPage ad.targetPages &&
  targetListOK targetDevice ad.targetDevices

/-- ≤-comparator of the query's `.sort({priority: -1, createdAt: -1})`. -/
def adSortLe (a b : Ad) : Bool :=
  if a.priority = b.priority then decide (b.createdAt ≤ a.createdAt)
  else decide (b.priority < a.priority)

/-- `Ad.getActiveAdsByPlacement(placement, targetPage, targetDevice)` executed
against the collection `ads` at time `now`. -/
def getActiveAdsByPlacement (now : Int) (placement targetPage targetDevice : String)
    (ads : List Ad) : List Ad :=
  (ads.filter (adQueryMatches now placement targetPage targetDevice)).mergeSort adSortLe

/-! ## General helper lemmas -/

/-- Folding `q ++ f x` starting from `acc` just prepends `acc`. -/
theorem foldl_append_shift {α β : Type} (f : α → List β) (l : List α) (acc : List β) :
    l.foldl (fun q x => q ++ f x) acc = acc ++ l.foldl (fun q x => q ++ f x) [] := by
  induction l generalizing acc with
  | nil => simp
  | cons x xs ih =>
    rw [List.foldl_cons, List.foldl_cons, ih (acc ++ f x), ih ([] ++ f x)]
    simp

/-- Unfolding `buildFilterQuery` one parameter at a time. -/
theorem buildFilterQuery_cons (kv : String × JsVal) (rest : List (String × JsVal)) :
    buildFilterQuery (kv :: rest) =
      (match entryFor kv.1 kv.2 with
       | some c => [(kv.1, c)]
       | none => []) ++ buildFilterQuery rest := by
  unfold buildFilterQuery
  rw [List.foldl_cons,
    foldl_append_shift (fun kv : String × JsVal =>
      (match entryFor kv.1 kv.2 with
       | some c => [(kv.1, c)]
       | none => []))]
  simp

/-- Every key constrained by `buildFilterQuery` is a key of the input object. -/
theorem mem_keys_buildFilterQuery {filters : List (String × JsVal)} {k : String}
    (h : k ∈ (buildFilterQuery filters).map Prod.fst) : k ∈ filters.map Prod.fst := by
  induction filters with
  | nil => simp [buildFilterQuery] at h
  | cons kv rest ih =>
    rw [buildFilterQuery_cons] at h
    rcases hE : entryFor kv.1 kv.2 with _ | c <;> rw [hE] at h
    · simp only [List.nil_append] at h
      exact List.mem_cons_of_mem _ (ih h)
    · rw [List.map_append, List.mem_append] at h
      rcases h with h1 | h1
      · simp only [List.map_cons, List.map_nil, List.mem_singleton] at h1
        simp [h1]
      · exact List.mem_cons_of_mem _ (ih h1)

/-- A JS-falsy value never contributes a constraint. -/
theorem entryFor_falsy {k : String} {v : JsVal} (h : jsFalsy v = true) :
    entryFor k v = none := by
  unfold entryFor
  rw [if_pos (by simp [h])]

/-! ## C2: pagination with `total = 0` -/

/-- C2, counterexample: with `total = 0` the claimed triple fails in two ways,
both because the navigation flags never look at `total`.  At `page = 2`,
`hasPrevPage = (currentPage > 1)` is `true`; and at `page = -3`,
`hasNextPage = (currentPage < totalPages)` is `true` because
`totalPages = ceil(0/limit) = 0` and `-3 < 0`. -/
theorem createPagination_total_zero_counterexample :
    ¬ ((createPagination (some 2) (some 12) 0 ([] : List Nat)).totalPages = 0 ∧
       (createPagination (some 2) (some 12) 0 ([] : List Nat)).hasNextPage = false ∧
       (createPagination (some 2) (some 12) 0 ([] : List Nat)).hasPrevPage = false) ∧
    (createPagination (some (-3)) (some 12) 0 ([] : List Nat)).hasNextPage = true := by
  constructor
  · intro h
    exact absurd h.2.2 (by decide)
  · have hceil : (⌈((0 : Nat) : ℚ) / (jsOrInt (some 12) 12 : ℚ)⌉ : Int) = 0 := by
      norm_num
    simp only [createPagination, hceil]
    decide

/-- C2, amended: for `total = 0` and every page value, `createPagination`
returns `totalPages = 0`, but both navigation flags are computed from the page
number alone: `hasNextPage` equals `page < 0` (true for every negative
effective page, since `currentPage < totalPages = 0`) and `hasPrevPage` equals
`page > 1`.  Both flags are `false` exactly when the effective page lies in
`0..1` (which includes the defaulted pages for absent, `NaN` and `0`
parameters). -/
theorem createPagination_total_zero (page limit : Option Int) (docs : List Nat) :
    (createPagination page limit 0 docs).totalPages = 0 ∧
    (createPagination page limit 0 docs).hasNextPage = decide (jsOrInt page 1 < 0) ∧
    (createPagination page limit 0 docs).hasPrevPage = decide (1 < jsOrInt page 1) := by
  have hceil : (⌈((0 : Nat) : ℚ) / (jsOrInt limit 12 : ℚ)⌉ : Int) = 0 := by
    norm_num
  refine ⟨?_, ?_, rfl⟩
  · simp [createPagination]
  · simp only [createPagination, hceil]

/-! ## C8: user serialization hides secret fields -/

/-- C8: for every user document, the outward JSON produced by
`userSchema.methods.toJSON` contains neither a `password` key nor a
`refreshToken` key, whatever the user's state. -/
theorem userToJSON_hides_secrets (u : User) :
    "password" ∉ (userToJSON u).map Prod.fst ∧
    "refreshToken" ∉ (userToJSON u).map Prod.fst := by
  constructor <;> simp [userToJSON, userToObject]

/-! ## C9: comma-separated genres become an any-of membership test -/

/-- C9: `buildFilterQuery({genres: "Action, Comedy"})` produces
`{genres: {$in: ["Action", "Comedy"]}}`, and under MongoDB's `$in`-on-array
semantics this matches every document whose genre set contains `"Action"`
(even without `"Comedy"`), and likewise every document whose genre set
contains `"Comedy"`. -/
theorem buildFilterQuery_genres_any_of :
    buildFilterQuery [("genres", .str "Action, Comedy")] =
      [("genres", .inList ["Action", "Comedy"])] ∧
    (∀ docGenres : List String, "Action" ∈ docGenres →
      inListMatchesArrayField ["Action", "Comedy"] docGenres) ∧
    (∀ docGenres : List String, "Comedy" ∈ docGenres →
      inListMatchesArrayField ["Action", "Comedy"] docGenres) := by
  refine ⟨by decide, ?_, ?_⟩
  · intro docGenres h
    exact ⟨"Action", h, by decide⟩
  · intro docGenres h
    exact ⟨"Comedy", h, by decide⟩

/-- Witness for `buildFilterQuery_genres_any_of`: a document with only
`"Action"` and one with `"Comedy"` (but not `"Action"`) both match. -/
theorem buildFilterQuery_genres_any_of_witness :
    inListMatchesArrayField ["Action", "Comedy"] ["Action"] ∧
    inListMatchesArrayField ["Action", "Comedy"] ["Drama", "Comedy"] :=
  ⟨buildFilterQuery_genres_any_of.2.1 ["Action"] (by decide),
   buildFilterQuery_genres_any_of.2.2 ["Drama", "Comedy"] (by decide)⟩

/-! ## C10: falsy filter values impose no constraint -/

/-- C10: a JS-falsy filter value contributes no constraint at all:
`buildFilterQuery({isActive: false})` is the empty (match-all) query; in
general a key bound to a falsy value never occurs in the produced query; and
consequently the admin ad listing (`getAllAds` with `isActive === 'false'`)
issues a query with no `isActive` constraint, so it cannot restrict to
inactive ads through this path. -/
theorem buildFilterQuery_falsy_no_constraint :
    buildFilterQuery [("isActive", .bool false)] = [] ∧
    (∀ (filters : List (String × JsVal)) (key : String) (v : JsVal),
      (filters.map Prod.fst).Nodup → (key, v) ∈ filters → jsFalsy v = true →
      key ∉ (buildFilterQuery filters).map Prod.fst) ∧
    (∀ type placement network : JsVal,
      "isActive" ∉ (adsListQuery type placement network (some "false")).map Prod.fst) := by
  have hgen : ∀ (filters : List (String × JsVal)) (key : String) (v : JsVal),
      (filters.map Prod.fst).Nodup → (key, v) ∈ filters → jsFalsy v = true →
      key ∉ (buildFilterQuery filters).map Prod.fst := by
    intro filters key v hnd hmem hfalsy
    induction filters with
    | nil => cases hmem
    | cons kv rest ih =>
      rw [buildFilterQuery_cons]
      rw [List.map_cons, List.nodup_cons] at hnd
      intro hcontra
      rw [List.map_append, List.mem_append] at hcontra
      rcases List.mem_cons.mp hmem with heq | hrest
      · subst heq
        have hE : entryFor key v = none := entryFor_falsy hfalsy
        simp only [hE] at hcontra
        rcases hcontra with h1 | h1
        · simp at h1
        · exact hnd.1 (mem_keys_buildFilterQuery h1)
      · rcases hcontra with h1 | h1
        · have hkey : key ∈ rest.map Prod.fst :=
            List.mem_map.mpr ⟨(key, v), hrest, rfl⟩
          rcases hE : entryFor kv.1 kv.2 with _ | c <;> rw [hE] at h1
          · simp at h1
          · simp only [List.map_cons, List.map_nil, List.mem_singleton] at h1
            exact hnd.1 (h1 ▸ hkey)
        · exact ih hnd.2 hrest h1
  refine ⟨by decide, hgen, ?_⟩
  intro type placement network
  exact hgen _ "isActive" (.bool false) (by simp) (by simp) rfl

/-- Witness for `buildFilterQuery_falsy_no_constraint`: instantiating the
general statement at the one-entry object `{isActive: false}`. -/
theorem buildFilterQuery_falsy_no_constraint_witness :
    "isActive" ∉ (buildFilterQuery [("isActive", JsVal.bool false)]).map Prod.fst :=
  buildFilterQuery_falsy_no_constraint.2.1 [("isActive", JsVal.bool false)]
    "isActive" (.bool false) (by decide) (by decide) rfl

/-! ## C1: the save hook maintains the episode/season counts -/

/-- The `forEach` accumulation of the save hook equals `init + Σ lengths`. -/
theorem foldl_episode_lengths (l : List Season) (n : Nat) :
    l.foldl (fun acc se => acc + se.episodes.length) n =
      n + (l.map (fun se => se.episodes.length)).sum := by
  induction l generalizing n with
  | nil => simp
  | cons se rest ih => simp [ih]; omega

/-- Every saved series satisfies the count invariant, because the
`pre('save')` hook recomputes both derived fields. -/
theorem countInvariant_seriesPreSave (s : Series) :
    countInvariant (seriesPreSave s) := by
  constructor
  · simp [seriesPreSave, foldl_episode_lengths]
  · rfl

/-- A successful `addSeason` response is a saved (hook-processed) document. -/
theorem addSeason_ok_shape {s : Series} {u : UserCtx} {n : Int}
    {name overview posterPath : String} {airDate : Option Int} {s2 : Series}
    (h : addSeason s u n name overview posterPath airDate = .ok s2) :
    ∃ s1, s2 = seriesPreSave s1 := by
  unfold addSeason at h
  split at h
  · cases h
  · split at h
    · cases h
    · exact ⟨_, (Except.ok.injEq _ _ ▸ h.symm : _)⟩

/-- A successful `addEpisode` response is a saved (hook-processed) document. -/
theorem addEpisode_ok_shape {s : Series} {u : UserCtx} {n : Int} {ep : Episode}
    {s2 : Series} (h : addEpisode s u n ep = .ok s2) :
    ∃ s1, s2 = seriesPreSave s1 := by
  unfold addEpisode at h
  split at h
  · cases h
  · split at h
    · cases h
    · split at h
      · cases h
      · exact ⟨_, (Except.ok.injEq _ _ ▸ h.symm : _)⟩

/-- Whenever a mutation request actually saves, the stored result is a
hook-processed document. -/
theorem applySeriesOp_saved_shape (s : Series) (op : SeriesOp)
    (h : (applySeriesOp s op).2 = true) :
    ∃ s1, (applySeriesOp s op).1 = seriesPreSave s1 := by
  cases op with
  | season u n name overview posterPath airDate =>
    cases hres : addSeason s u n name overview posterPath airDate with
    | error e => simp [applySeriesOp, hres] at h
    | ok s2 =>
      simp only [applySeriesOp, hres]
      exact addSeason_ok_shape hres
  | episode u n ep =>
    cases hres : addEpisode s u n ep with
    | error e => simp [applySeriesOp, hres] at h
    | ok s2 =>
      simp only [applySeriesOp, hres]
      exact addEpisode_ok_shape hres

/-- C1: for every series and every sequence of `addSeason`/`addEpisode`
requests, after each request that saves, the stored `numberOfEpisodes` equals
the sum of the episode-list lengths across all seasons and `numberOfSeasons`
equals the season count. -/
theorem series_counts_after_save (s : Series) (ops : List SeriesOp) (op : SeriesOp)
    (hsave : (applySeriesOp (runSeriesOps s ops) op).2 = true) :
    countInvariant (applySeriesOp (runSeriesOps s ops) op).1 := by
  obtain ⟨s1, hshape⟩ := applySeriesOp_saved_shape (runSeriesOps s ops) op hsave
  rw [hshape]
  exact countInvariant_seriesPreSave s1

/-- Witness for `series_counts_after_save`: an admin adds season 1 to a fresh
series. -/
theorem series_counts_after_save_witness :
    countInvariant
      (applySeriesOp
        (runSeriesOps ⟨[], 0, 0, 1, none⟩ [])
        (.season ⟨1, .admin⟩ 1 "" "" "" none)).1 :=
  series_counts_after_save ⟨[], 0, 0, 1, none⟩ []
    (.season ⟨1, .admin⟩ 1 "" "" "" none) (by decide)

/-! ## C3: `addEpisode` needs an existing season and a fresh episode number -/

/-- C3: for an authorized requester, `addEpisode` responds 404 when the series
has no season with the requested number (it never creates the season
implicitly), responds 409 when the season already holds an episode with the
submitted `episodeNumber`, and every error response leaves the stored series
unchanged (no save happens). -/
theorem addEpisode_requires_existing_season (s : Series) (u : UserCtx)
    (n : Int) (ep : Episode) (hauth : authorized s u) :
    (s.seasons.find? (fun se => se.seasonNumber = n) = none →
      addEpisode s u n ep = .error .notFound) ∧
    (∀ season, s.seasons.find? (fun se => se.seasonNumber = n) = some season →
      (∃ e ∈ season.episodes, e.episodeNumber = ep.episodeNumber) →
      addEpisode s u n ep = .error .conflict) ∧
    (∀ c, addEpisode s u n ep = .error c →
      applySeriesOp s (.episode u n ep) = (s, false)) := by
  have hguard : ¬(u.role ≠ .admin ∧ s.addedBy ≠ u.id) := by
    rcases hauth with h | h <;> simp [h]
  refine ⟨?_, ?_, ?_⟩
  · intro hnone
    unfold addEpisode
    rw [if_neg hguard, hnone]
  · intro season hfind hdup
    have hany : season.episodes.any (fun e => e.episodeNumber = ep.episodeNumber) = true := by
      rcases hdup with ⟨e, hmem, hnum⟩
      exact List.any_eq_true.mpr ⟨e, hmem, by simp [hnum]⟩
    unfold addEpisode
    rw [if_neg hguard, hfind]
    simp [hany]
  · intro c hc
    simp [applySeriesOp, hc]

/-- Witness for `addEpisode_requires_existing_season`: a series with only
season 1; requesting episode 1 of season 2 yields 404 and no save. -/
theorem addEpisode_requires_existing_season_witness :
    addEpisode ⟨[⟨1, "Season 1", "", "", none, []⟩], 1, 0, 1, none⟩
      ⟨1, .admin⟩ 2 ⟨1, "Pilot"⟩ = .error .notFound :=
  (addEpisode_requires_existing_season
    ⟨[⟨1, "Season 1", "", "", none, []⟩], 1, 0, 1, none⟩
    ⟨1, .admin⟩ 2 ⟨1, "Pilot"⟩ (Or.inl rfl)).1 (by decide)

/-! ## C7: duplicate `addSeason` is a conflict and changes nothing -/

/-- C7: for an authorized requester, adding a season whose `seasonNumber`
already occurs in the series responds 409 and the stored series (hence its
season list and count) is unchanged. -/
theorem addSeason_duplicate_conflict (s : Series) (u : UserCtx) (n : Int)
    (name overview posterPath : String) (airDate : Option Int)
    (hauth : authorized s u)
    (hdup : ∃ se ∈ s.seasons, se.seasonNumber = n) :
    addSeason s u n name overview posterPath airDate = .error .conflict ∧
    applySeriesOp s (.season u n name overview posterPath airDate) = (s, false) := by
  have hguard : ¬(u.role ≠ .admin ∧ s.addedBy ≠ u.id) := by
    rcases hauth with h | h <;> simp [h]
  have hany : s.seasons.any (fun se => se.seasonNumber = n) = true := by
    rcases hdup with ⟨se, hmem, hnum⟩
    exact List.any_eq_true.mpr ⟨se, hmem, by simp [hnum]⟩
  have herr : addSeason s u n name overview posterPath airDate = .error .conflict := by
    unfold addSeason
    rw [if_neg hguard]
    simp [hany]
  exact ⟨herr, by simp [applySeriesOp, herr]⟩

/-- Witness for `addSeason_duplicate_conflict`: adding season 1 twice — the
second request hits the series produced by the first and fails with 409. -/
theorem addSeason_duplicate_conflict_witness :
    addSeason
      ⟨[⟨1, "Season 1", "", "", none, []⟩], 1, 0, 1, some 1⟩
      ⟨1, .admin⟩ 1 "" "" "" none = .error .conflict ∧
    applySeriesOp
      ⟨[⟨1, "Season 1", "", "", none, []⟩], 1, 0, 1, some 1⟩
      (.season ⟨1, .admin⟩ 1 "" "" "" none) =
      (⟨[⟨1, "Season 1", "", "", none, []⟩], 1, 0, 1, some 1⟩, false) :=
  addSeason_duplicate_conflict
    ⟨[⟨1, "Season 1", "", "", none, []⟩], 1, 0, 1, some 1⟩
    ⟨1, .admin⟩ 1 "" "" "" none (Or.inl rfl)
    ⟨⟨1, "Season 1", "", "", none, []⟩, by decide, rfl⟩

/-! ## C5: ad page/device targeting -/

/-- C5, counterexample to the general "iff": when the requested page value is
the literal `'all'` (the controller's default), `getActiveAdsByPlacement` adds
no page filter at all, so an otherwise-active Header ad with
`targetPages = ["detail"]` is returned even though its target list is
non-empty, lacks the requested value and lacks `"all"`. -/
theorem adTargeting_all_counterexample :
    (⟨"ad", "Header", true, 1, ["detail"], [], [], none, none, 0⟩ : Ad) ∈
      getActiveAdsByPlacement 0 "Header" "all" "all"
        [⟨"ad", "Header", true, 1, ["detail"], [], [], none, none, 0⟩] ∧
    ¬ ((["detail"] : List String) = [] ∨ "all" ∈ (["detail"] : List String)) := by
  constructor
  · have hfilter : getActiveAdsByPlacement 0 "Header" "all" "all"
        [⟨"ad", "Header", true, 1, ["detail"], [], [], none, none, 0⟩] =
        [⟨"ad", "Header", true, 1, ["detail"], [], [], none, none, 0⟩] := by
      unfold getActiveAdsByPlacement
      rw [show List.filter (adQueryMatches 0 "Header" "all" "all")
          [(⟨"ad", "Header", true, 1, ["detail"], [], [], none, none, 0⟩ : Ad)] =
          [⟨"ad", "Header", true, 1, ["detail"], [], [], none, none, 0⟩] from rfl,
        List.mergeSort_singleton]
    rw [hfilter]
    exact List.mem_singleton.mpr rfl
  · decide

/-- C5, amended: `getActiveAdsByPlacement("Header", targetPage="homepage")`
excludes every ad with `targetPages = ["detail"]` and includes every
otherwise-active Header ad whose `targetPages` is empty or contains `"all"`;
and for any requested value other than the literal `'all'`, an ad passes
page/device targeting iff the target list is empty, contains the requested
value, or contains `"all"` (for requested value `'all'` the filter is skipped
entirely). -/
theorem adTargeting_semantics :
    (∀ (now : Int) (ads : List Ad) (ad : Ad) (d : String),
      ad.targetPages = ["detail"] →
      ad ∉ getActiveAdsByPlacement now "Header" "homepage" d ads) ∧
    (∀ (now : Int) (ads : List Ad) (ad : Ad) (d : String),
      ad ∈ ads → ad.placement = "Header" → ad.isActive = true →
      scheduleOK now ad = true → targetListOK d ad.targetDevices = true →
      (ad.targetPages = [] ∨ "all" ∈ ad.targetPages) →
      ad ∈ getActiveAdsByPlacement now "Header" "homepage" d ads) ∧
    (∀ (v : String) (lst : List String), v ≠ "all" →
      (targetListOK v lst = true ↔ (lst = [] ∨ v ∈ lst ∨ "all" ∈ lst))) := by
  have hiff : ∀ (v : String) (lst : List String), v ≠ "all" →
      (targetListOK v lst = true ↔ (lst = [] ∨ v ∈ lst ∨ "all" ∈ lst)) := by
    intro v lst hv
    unfold targetListOK
    rw [if_neg hv]
    simp only [List.contains, List.elem_eq_mem, Bool.or_eq_true,
      decide_eq_true_eq, List.isEmpty_iff]
    tauto
  refine ⟨?_, ?_, hiff⟩
  · intro now ads ad d hpages hmem
    rw [getActiveAdsByPlacement, List.mem_mergeSort, List.mem_filter] at hmem
    have hmatch := hmem.2
    simp [adQueryMatches, targetListOK, hpages] at hmatch
  · intro now ads ad d hmem hplac hact hsched hdev hpages
    rw [getActiveAdsByPlacement, List.mem_mergeSort, List.mem_filter]
    refine ⟨hmem, ?_⟩
    have hpage : targetListOK "homepage" ad.targetPages = true := by
      rcases hpages with h | h
      · simp [targetListOK, h]
      · simp [targetListOK, List.contains, List.elem_eq_mem, h]
    simp [adQueryMatches, hplac, hact, hsched, hdev, hpage]

/-- Witness for `adTargeting_semantics`: a `["detail"]`-targeted Header ad is
excluded for page `homepage`; an `[]`-targeted one is included; and the "iff"
evaluated at `("homepage", ["detail"])` is false on both sides. -/
theorem adTargeting_semantics_witness :
    (⟨"d", "Header", true, 1, ["detail"], [], [], none, none, 0⟩ : Ad) ∉
      getActiveAdsByPlacement 0 "Header" "homepage" "all"
        [⟨"d", "Header", true, 1, ["detail"], [], [], none, none, 0⟩] ∧
    (⟨"u", "Header", true, 1, [], [], [], none, none, 0⟩ : Ad) ∈
      getActiveAdsByPlacement 0 "Header" "homepage" "all"
        [⟨"u", "Header", true, 1, [], [], [], none, none, 0⟩] ∧
    (targetListOK "homepage" ["detail"] = true ↔
      ((["detail"] : List String) = [] ∨ "homepage" ∈ (["detail"] : List String) ∨
        "all" ∈ (["detail"] : List String))) :=
  ⟨adTargeting_semantics.1 0 _ _ "all" rfl,
   adTargeting_semantics.2.1 0 _ _ "all" (List.mem_singleton.mpr rfl) rfl rfl rfl rfl
     (Or.inl rfl),
   adTargeting_semantics.2.2 "homepage" ["detail"] (by decide)⟩

/-! ## C6: slug alphabet and year suffix -/

/-- Lowercasing never produces an ASCII uppercase letter. -/
theorem jsToLowerCode_not_upper (c : Nat) :
    ¬ (65 ≤ jsToLowerCode c ∧ jsToLowerCode c ≤ 90) := by
  unfold jsToLowerCode
  split <;> omega

/-- Characters surviving `.trim()` come from the original string. -/
theorem mem_of_mem_trimSpaces {l : List Nat} {c : Nat} (h : c ∈ trimSpaces l) :
    c ∈ l := by
  unfold trimSpaces at h
  rw [List.mem_reverse] at h
  have h2 := (List.dropWhile_sublist _).subset h
  rw [List.mem_reverse] at h2
  exact (List.dropWhile_sublist _).subset h2

/-- Characters surviving the hyphen trim come from its input. -/
theorem mem_of_mem_trimHyphens {l : List Nat} {c : Nat} (h : c ∈ trimHyphens l) :
    c ∈ l := by
  unfold trimHyphens at h
  rw [List.mem_reverse] at h
  have h2 := (List.dropWhile_sublist _).subset h
  rw [List.mem_reverse] at h2
  exact (List.dropWhile_sublist _).subset h2

/-- Run collapsing emits only hyphens and the non-separator input characters;
if every input character is a surviving (word/space/hyphen) character and none
is an uppercase letter, every output character is in `[a-z0-9-]`. -/
theorem collapseSeps_chars :
    ∀ (l : List Nat) (flag : Bool),
      (∀ c ∈ l, (isWordCode c || isSpaceCode c || c = 45) = true ∧
        ¬ (65 ≤ c ∧ c ≤ 90)) →
      ∀ c ∈ collapseSeps l flag, allowedSlugCode c = true := by
  intro l
  induction l with
  | nil => intro flag _ c hc; simp [collapseSeps] at hc
  | cons a rest ih =>
    intro flag h c hc
    have hhead := h a (List.mem_cons_self a rest)
    have htail : ∀ c ∈ rest, (isWordCode c || isSpaceCode c || c = 45) = true ∧
        ¬ (65 ≤ c ∧ c ≤ 90) :=
      fun x hx => h x (List.mem_cons_of_mem a hx)
    unfold collapseSeps at hc
    by_cases hsep : isSepCode a = true
    · rw [if_pos hsep] at hc
      cases flag with
      | true => exact ih true htail c hc
      | false =>
        rcases List.mem_cons.mp hc with rfl | hc2
        · decide
        · exact ih true htail c hc2
    · rw [if_neg hsep] at hc
      rcases List.mem_cons.mp hc with rfl | hc2
      · have h1 := hhead.1
        have h2 := hhead.2
        simp only [isWordCode, isSpaceCode, isSepCode, allowedSlugCode,
          Bool.or_eq_true, Bool.and_eq_true, decide_eq_true_eq] at h1 h2 hsep ⊢
        push_neg at h2 hsep
        omega
      · exact ih false htail c hc2

/-- The decimal digits of a number are digit characters. -/
theorem natDigitsAux_chars :
    ∀ (fuel n : Nat), ∀ c ∈ natDigitsAux fuel n, 48 ≤ c ∧ c ≤ 57 := by
  intro fuel
  induction fuel with
  | zero => intro n c hc; simp [natDigitsAux] at hc
  | succ k ih =>
    intro n c hc
    unfold natDigitsAux at hc
    by_cases hn : n < 10
    · rw [if_pos hn] at hc
      rcases List.mem_singleton.mp hc with rfl
      omega
    · rw [if_neg hn] at hc
      rcases List.mem_append.mp hc with h1 | h1
      · exact ih (n / 10) c h1
      · rcases List.mem_singleton.mp h1 with rfl
        have := Nat.mod_lt n (show 0 < 10 by omega)
        omega

/-- Every character of the pre-year slug body is in `[a-z0-9-]`. -/
theorem generateSlug_base_chars (title : List Nat) :
    ∀ c ∈ trimHyphens (collapseSeps (removeSpecials (trimSpaces
      (title.map jsToLowerCode))) false), allowedSlugCode c = true := by
  intro c hc
  have hc2 := mem_of_mem_trimHyphens hc
  refine collapseSeps_chars _ false ?_ c hc2
  intro x hx
  rcases List.mem_filter.mp hx with ⟨hx1, hx2⟩
  have hx3 := mem_of_mem_trimSpaces hx1
  rcases List.mem_map.mp hx3 with ⟨y, _, rfl⟩
  exact ⟨hx2, jsToLowerCode_not_upper y⟩

/-- C6, counterexample to the year-suffix part: `${year}` is only appended
under JS truthiness, so the falsy year `0`, although given, leaves the slug
without the `-0` suffix. -/
theorem generateSlug_zero_year_counterexample :
    generateSlug [109] (some 0) = [109] ∧
    ¬ ((45 :: natDigits 0) <:+ generateSlug [109] (some 0)) := by
  constructor
  · decide
  · decide

/-- C6, amended: for every title and year parameter, every character of
`generateSlug` is in `[a-z0-9-]` (in particular the output contains no
uppercase letter, i.e. it is entirely lowercase), and whenever a *truthy*
(nonzero) year `Y` is given the output ends with the suffix `-Y`; a year of
`0` is falsy in JS and appends nothing. -/
theorem generateSlug_charset_and_year_suffix (title : List Nat) (year : Option Nat) :
    (∀ c ∈ generateSlug title year, allowedSlugCode c = true) ∧
    (∀ c ∈ generateSlug title year, ¬ (65 ≤ c ∧ c ≤ 90)) ∧
    (∀ y, year = some y → y ≠ 0 →
      (45 :: natDigits y) <:+ generateSlug title year) := by
  have hchar : ∀ c ∈ generateSlug title year, allowedSlugCode c = true := by
    intro c hc
    cases year with
    | none =>
      simp only [generateSlug] at hc
      exact generateSlug_base_chars title c hc
    | some y =>
      simp only [generateSlug] at hc
      by_cases hy : y = 0
      · rw [if_pos hy] at hc
        exact generateSlug_base_chars title c hc
      · rw [if_neg hy] at hc
        rcases List.mem_append.mp hc with h1 | h1
        · exact generateSlug_base_chars title c h1
        · rcases List.mem_cons.mp h1 with rfl | h2
          · decide
          · have := natDigitsAux_chars (y + 1) y c h2
            simp only [allowedSlugCode, Bool.or_eq_true, Bool.and_eq_true,
              decide_eq_true_eq]
            omega
  refine ⟨hchar, ?_, ?_⟩
  · intro c hc
    have := hchar c hc
    simp only [allowedSlugCode, Bool.or_eq_true, Bool.and_eq_true,
      decide_eq_true_eq] at this
    omega
  · intro y hy hz
    subst hy
    simp only [generateSlug]
    rw [if_neg hz]
    exact List.suffix_append _ _

/-- Witness for `generateSlug_charset_and_year_suffix` on the title
`"Hello World!"` (as code units) with year 2021: the hyphen is an allowed,
non-uppercase output character and the slug ends in `-2021`. -/
theorem generateSlug_charset_and_year_suffix_witness :
    allowedSlugCode 104 = true ∧
    ¬ (65 ≤ 104 ∧ 104 ≤ 90) ∧
    (45 :: natDigits 2021) <:+
      generateSlug [72, 101, 108, 108, 111, 32, 87, 111, 114, 108, 100, 33]
        (some 2021) :=
  ⟨(generateSlug_charset_and_year_suffix
      [72, 101, 108, 108, 111, 32, 87, 111, 114, 108, 100, 33] (some 2021)).1
      104 (by decide),
   (generateSlug_charset_and_year_suffix
      [72, 101, 108, 108, 111, 32, 87, 111, 114, 108, 100, 33] (some 2021)).2.1
      104 (by decide),
   (generateSlug_charset_and_year_suffix
      [72, 101, 108, 108, 111, 32, 87, 111, 114, 108, 100, 33] (some 2021)).2.2
      2021 rfl (by decide)⟩

/-! ## C4: trending order among score ties -/

/-- The trending-score comparator is transitive. -/
theorem trendingLe_trans (a b c : FeedItem)
    (hab : trendingLe a b) (hbc : trendingLe b c) : trendingLe a c := by
  simp only [trendingLe, decide_eq_true_eq] at *
  exact le_trans hbc hab

/-- The trending-score comparator is total. -/
theorem trendingLe_total (a b : FeedItem) : trendingLe a b || trendingLe b a := by
  simp only [trendingLe, Bool.or_eq_true, decide_eq_true_eq]
  exact le_total _ _

/-- Two distinct members of a list occur as a pair-sublist in one of the two
orders. -/
theorem pair_sublist_of_mem_mem {α : Type} {l : List α} {a b : α}
    (ha : a ∈ l) (hb : b ∈ l) (hne : a ≠ b) :
    [a, b].Sublist l ∨ [b, a].Sublist l := by
  induction l with
  | nil => cases ha
  | cons c t ih =>
    rcases List.mem_cons.mp ha with rfl | ha2
    · have hb2 : b ∈ t := by
        rcases List.mem_cons.mp hb with h | h
        · exact absurd h.symm hne
        · exact h
      exact Or.inl (List.Sublist.cons₂ _ (List.singleton_sublist.mpr hb2))
    · rcases List.mem_cons.mp hb with rfl | hb2
      · exact Or.inr (List.Sublist.cons₂ _ (List.singleton_sublist.mpr ha2))
      · exact (ih ha2 hb2).imp (List.Sublist.cons c) (List.Sublist.cons c)

/-- In a duplicate-free list a pair cannot occur as a sublist in both orders
unless its two components are equal. -/
theorem eq_of_pair_sublist_both {α : Type} {l : List α} {a b : α}
    (hnd : l.Nodup) (hab : [a, b].Sublist l) (hba : [b, a].Sublist l) : a = b := by
  induction l with
  | nil => cases hab
  | cons c t ih =>
    rw [List.nodup_cons] at hnd
    cases hab with
    | cons _ h1 =>
      cases hba with
      | cons _ h2 => exact ih hnd.2 h1 h2
      | cons₂ _ h2 =>
        exact absurd (h1.subset (by simp)) hnd.1
    | cons₂ _ h1 =>
      cases hba with
      | cons _ h2 =>
        exact absurd (h2.subset (by simp)) hnd.1
      | cons₂ _ h2 => rfl

/-- C4, counterexample: a movie and a series with identical views, rating and
likes but different creation times.  The in-memory trending comparator uses
only the score, the tie keeps insertion order, and movies are pushed before
series — so the older movie (createdAt 0) is placed before the newer series
(createdAt 100), not the other way round. -/
theorem combinedTrendingFeed_counterexample :
    combinedTrendingFeed [⟨.movie, 5, 5, 5, 0⟩] [⟨.series, 5, 5, 5, 100⟩] =
      [⟨.movie, 5, 5, 5, 0⟩, ⟨.series, 5, 5, 5, 100⟩] ∧
    ¬ recentFirstOnTies
      (combinedTrendingFeed [⟨.movie, 5, 5, 5, 0⟩] [⟨.series, 5, 5, 5, 100⟩]) := by
  have heq : combinedTrendingFeed [⟨.movie, 5, 5, 5, 0⟩] [⟨.series, 5, 5, 5, 100⟩] =
      [⟨.movie, 5, 5, 5, 0⟩, ⟨.series, 5, 5, 5, 100⟩] := by
    show List.mergeSort [⟨.movie, 5, 5, 5, 0⟩, ⟨.series, 5, 5, 5, 100⟩] trendingLe = _
    refine List.mergeSort_of_sorted ?_
    refine List.pairwise_cons.mpr ⟨?_, List.pairwise_singleton _ _⟩
    intro x hx
    rcases List.mem_singleton.mp hx with rfl
    simp [trendingLe, trendingScore]
  refine ⟨heq, ?_⟩
  rw [recentFirstOnTies, heq]
  decide

/-- C4, amended: in the combined trending feed, among items of the *same*
content type with equal views, rating and likes, the more recently created one
is placed first.  (Across content types a score tie keeps all movies before
all series, whatever the timestamps — that is exactly what the counterexample
exhibits.)  The hypotheses state what the store guarantees: each fetched list
is sorted by the Mongo trending key `views desc, rating desc, createdAt desc`,
carries its collection's content-type tag, and the documents are pairwise
distinct. -/
theorem combinedTrendingFeed_recent_first_same_type
    (ms ss : List FeedItem)
    (hm : ms.Pairwise (fun a b => mongoTrendingLe a b = true))
    (hs : ss.Pairwise (fun a b => mongoTrendingLe a b = true))
    (hmt : ∀ x ∈ ms, x.contentType = ContentType.movie)
    (hst : ∀ x ∈ ss, x.contentType = ContentType.series)
    (hnd : (ms ++ ss).Nodup) :
    (combinedTrendingFeed ms ss).Pairwise
      (fun a b => a.contentType = b.contentType ∧ a.views = b.views ∧
        a.rating = b.rating ∧ a.likes = b.likes → b.createdAt ≤ a.createdAt) := by
  rw [List.pairwise_iff_forall_sublist]
  intro a b hsub
  rintro ⟨htype, hviews, hrating, hlikes⟩
  by_contra hlt
  push_neg at hlt
  have hne : a ≠ b := by
    intro h
    rw [h] at hlt
    exact absurd hlt (lt_irrefl _)
  have hsub2 : [a, b].Sublist ((ms ++ ss).mergeSort trendingLe) := hsub
  have hamem : a ∈ ms ++ ss := List.mem_mergeSort.mp (hsub2.subset (by simp))
  have hbmem : b ∈ ms ++ ss := List.mem_mergeSort.mp (hsub2.subset (by simp))
  have key : ∀ L : List FeedItem, L.Pairwise (fun a b => mongoTrendingLe a b = true) →
      L.Sublist (ms ++ ss) → a ∈ L → b ∈ L → False := by
    intro L hL hLsub haL hbL
    rcases pair_sublist_of_mem_mem haL hbL hne with h1 | h1
    · have hrel := List.pairwise_iff_forall_sublist.mp hL h1
      unfold mongoTrendingLe at hrel
      rw [if_pos hviews, if_pos hrating, decide_eq_true_eq] at hrel
      omega
    · have hscore : trendingScore a = trendingScore b := by
        simp [trendingScore, hviews, hrating, hlikes]
      have hle : trendingLe b a = true := by
        simp [trendingLe, hscore]
      have h2 : [b, a].Sublist ((ms ++ ss).mergeSort trendingLe) :=
        List.pair_sublist_mergeSort trendingLe_trans trendingLe_total hle
          (h1.trans hLsub)
      have hndout : ((ms ++ ss).mergeSort trendingLe).Nodup :=
        (List.mergeSort_perm (ms ++ ss) trendingLe).nodup_iff.mpr hnd
      exact hne (eq_of_pair_sublist_both hndout hsub2 h2)
  rcases List.mem_append.mp hamem with ham | has
  · rcases List.mem_append.mp hbmem with hbm | hbs
    · exact key ms hm (List.sublist_append_left ms ss) ham hbm
    · rw [hmt a ham, hst b hbs] at htype
      cases htype
  · rcases List.mem_append.mp hbmem with hbm | hbs
    · rw [hst a has, hmt b hbm] at htype
      cases htype
    · exact key ss hs (List.sublist_append_right ms ss) has hbs

/-- Witness for `combinedTrendingFeed_recent_first_same_type`: two movies with
identical score statistics, store-sorted newest first, and no series. -/
theorem combinedTrendingFeed_recent_first_same_type_witness :
    (combinedTrendingFeed [⟨.movie, 5, 5, 5, 100⟩, ⟨.movie, 5, 5, 5, 0⟩] []).Pairwise
      (fun a b => a.contentType = b.contentType ∧ a.views = b.views ∧
        a.rating = b.rating ∧ a.likes = b.likes → b.createdAt ≤ a.createdAt) :=
  combinedTrendingFeed_recent_first_same_type
    [⟨.movie, 5, 5, 5, 100⟩, ⟨.movie, 5, 5, 5, 0⟩] []
    (by decide) (by decide) (by decide) (by decide) (by decide)

end MovieHubBD
